import Mathlib

set_option maxRecDepth 4000

/-!
Shallow embedding of the wikiFetch recursive crawler
(src/wikiFetch/GivingOneMovieItGoesInDepthSearchUptoMaxMOvieCount.py).

Pure string manipulation is modelled on `List Char`; the HTML parsing
library is abstracted behind small structures recording exactly the
facts the source code queries from it (which paragraphs sit under the
Plot heading, which list items sit under the External links heading),
matching the spec's out-of-scope boundary for the markup library.
Network I/O is modelled by an oracle `String → Outcome` giving, per
identifier, the outcome of the fetch-and-extract attempt.
-/

/-! ## Configuration constants (source lines 15-41) -/

def MAX_MOVIES : Nat := 5000

def MAX_SAFETY_DEPTH : Nat := 20

def MAX_HISTORY_LINKS : Nat := 100

def ENABLE_CIRCULAR_REFERENCE_PREVENTION : Bool := true

def ENABLE_GLOBAL_DUPLICATE_PREVENTION : Bool := true

/-! ## Character-list string helpers

Python string predicates used by the source: substring containment
(`nav in text`), `str.strip`, `str.lower`, and the two regex
substitutions inside `clean_reference_numbers`. -/

/-- Does the first list begin with the second list? (models Python
`str.startswith` at the character level, used to search substrings). -/
def charsLeadWith : List Char → List Char → Bool
  | _, [] => true
  | [], _ :: _ => false
  | c :: cs, d :: ds => c = d && charsLeadWith cs ds

/-- Does `needle` occur contiguously inside `hay`? Models Python `in`
on strings. -/
def charsHaveRun : List Char → List Char → Bool
  | [], needle => needle.isEmpty
  | c :: t, needle => charsLeadWith (c :: t) needle || charsHaveRun t needle

/-- Python `needle in hay` for strings. -/
def strContains (hay needle : String) : Bool :=
  charsHaveRun hay.toList needle.toList

/-- Python `hay.startswith(pre)`. -/
def strStartsWith (hay pre : String) : Bool :=
  charsLeadWith hay.toList pre.toList

/-- Drop whitespace from both ends of a character list. -/
def trimChars (l : List Char) : List Char :=
  ((l.dropWhile Char.isWhitespace).reverse.dropWhile Char.isWhitespace).reverse

/-- Python `s.strip()` (ASCII whitespace). -/
def strTrim (s : String) : String :=
  String.mk (trimChars s.toList)

/-- Python `s.lower()` (ASCII case folding). -/
def strLower (s : String) : String :=
  String.mk (s.toList.map Char.toLower)

/-- The last segment of the leftmost non-overlapping split of `hay` by
the nonempty `needle` (Python `hay.split(needle)[-1]`); segment
characters are accumulated in reverse, and the `Nat` argument is a
fuel bound on the input length. -/
def lastSegAux (needle : List Char) : Nat → List Char → List Char → List Char
  | 0, hay, acc => acc.reverse ++ hay
  | _ + 1, [], acc => acc.reverse
  | fuel + 1, c :: rest, acc =>
    if charsLeadWith (c :: rest) needle then
      lastSegAux needle fuel ((c :: rest).drop needle.length) []
    else lastSegAux needle fuel rest (c :: acc)

/-- Python `hay.split(needle)[-1]` for a nonempty separator. -/
def lastSplitSeg (hay needle : String) : String :=
  String.mk (lastSegAux needle.toList hay.toList.length hay.toList [])

/-- After an opening bracket, try to consume the regex tail
`\s*\d+\s*\]` (source line 51); return the remaining characters on a
match. -/
def refTail (l : List Char) : Option (List Char) :=
  let l1 := l.dropWhile Char.isWhitespace
  let digits := l1.takeWhile Char.isDigit
  let l2 := (l1.dropWhile Char.isDigit).dropWhile Char.isWhitespace
  if digits.isEmpty then none
  else
    match l2 with
    | ']' :: rest => some rest
    | _ => none

/-- Remove every non-overlapping leftmost match of the bracketed
reference-number pattern; the `Nat` argument is a fuel bound on the
input length (each step consumes at least one character). -/
def removeRefsAux : Nat → List Char → List Char
  | 0, l => l
  | _ + 1, [] => []
  | fuel + 1, c :: rest =>
    if c = '[' then
      match refTail rest with
      | some rest2 => removeRefsAux fuel rest2
      | none => c :: removeRefsAux fuel rest
    else c :: removeRefsAux fuel rest

/-- Models Python `re.sub(r'\[\s*\d+\s*\]', '', text)`. -/
def removeRefs (l : List Char) : List Char :=
  removeRefsAux l.length l

/-- One-pass whitespace-run collapsing; the flag records whether the
previous character was whitespace (already emitted as one space). -/
def collapseWsAux : Bool → List Char → List Char
  | _, [] => []
  | prevWs, c :: rest =>
    if c.isWhitespace then
      if prevWs then collapseWsAux true rest
      else ' ' :: collapseWsAux true rest
    else c :: collapseWsAux false rest

/-- Collapse every maximal run of whitespace to a single space; models
Python `re.sub(r'\s+', ' ', text)`. -/
def collapseWs (l : List Char) : List Char :=
  collapseWsAux false l

/-- Source `clean_reference_numbers` (lines 47-51): strip bracketed
reference numbers, collapse whitespace, trim; empty input returned
unchanged. -/
def clean_reference_numbers (text : String) : String :=
  if text = "" then text
  else String.mk (trimChars (collapseWs (removeRefs text.toList)))

/-! ## Navigation-element filter (source lines 54-60) -/

/-- The navigation-element denylist from source line 57. -/
def nav_elements : List String :=
  ["v", "t", "e", "v t e", "view", "template", "edit", "talk", "history",
   "watch", "star", "privacy policy", "about wikipedia", "disclaimers",
   "contact wikipedia", "code of conduct", "developers", "statistics",
   "cookie statement", "mobile view"]

/-- Source `is_valid_external_link`: the trimmed text must not be a
denylist element, no denylist element may occur as a substring of the
lowercased trimmed text, and the trimmed text must be longer than one
character. -/
def is_valid_external_link (text : String) : Bool :=
  let text_stripped := strTrim text
  !(nav_elements.contains text_stripped) &&
  !(nav_elements.any fun nav => strContains (strLower text_stripped) nav) &&
  decide (text_stripped.length > 1)

/-! ## Markup extractor (source lines 67-87, 182-213)

The parsed page is abstracted to the facts the source reads from the
soup: whether a Plot `h2` heading was found (by id `plot`/`Plot` or by
heading text containing "plot"), and the raw texts, in document order,
of the `p` elements whose nearest preceding `h2` is that heading. -/

structure Soup where
  hasPlotHeading : Bool
  plotParagraphs : List String
  deriving DecidableEq

/-- Source `extract_plot_text` (lines 67-87): concatenate the cleaned
nonempty paragraph texts under the Plot heading, each followed by a
newline; empty result when no Plot heading exists. -/
def extract_plot_text (soup : Soup) : String :=
  if !soup.hasPlotHeading then ""
  else
    soup.plotParagraphs.foldl
      (fun plot_text p =>
        let text := clean_reference_numbers p
        if text ≠ "" then plot_text ++ text ++ "\n" else plot_text)
      ""

/-- Outcome of the HTTP GET inside `get_movie_summary_wikipedia`. -/
inductive FetchResp where
  | badStatus (code : Nat)
  | requestFailed (msg : String)
  | page (soup : Soup)
  deriving DecidableEq

/-- Result dict of `get_movie_summary_wikipedia`: either an
`{"error": ...}` dict or a record with `status: success` and the
stripped plot text as `plot_summary` (other record fields are carried
by the soup and not needed by the claims). -/
inductive ExtractResult where
  | failure (error : String)
  | success (plot_summary : String)
  deriving DecidableEq

/-- Source `get_movie_summary_wikipedia` (lines 182-213): non-200 or
transport failure yields an error dict; a page whose extracted plot
text is empty after stripping yields an error dict; otherwise a
success record whose `plot_summary` is the stripped plot text. -/
def get_movie_summary_wikipedia : FetchResp → ExtractResult
  | .badStatus code =>
      .failure ("Failed to fetch page. Status code: " ++ Nat.repr code)
  | .requestFailed msg => .failure ("Request failed: " ++ msg)
  | .page soup =>
      let plot_text := extract_plot_text soup
      if strTrim plot_text = "" then .failure "Plot section not found or empty."
      else .success (strTrim plot_text)

/-! ## Link discoverer (source lines 438-480)

The External links section of the parsed page is abstracted to: does
such an `h2` exist, and the `li` elements under it (until the next
`h2`), each carrying its first hyperlink's target and text when one
exists. -/

structure LinkItem where
  href : String
  text : String
  deriving DecidableEq

structure ExtSoup where
  hasExternalSection : Bool
  items : List (Option LinkItem)
  deriving DecidableEq

/-- Python `href.split("/wiki/")[-1]`: the text after the last
occurrence of the separator (the whole string when absent). -/
def wikiTitle (href : String) : String :=
  lastSplitSeg href "/wiki/"

/-- The per-list-item acceptance condition of `extract_external_links`
(source lines 459-475), without the within-page deduplication check:
the item must carry a link, the target must be a Wikipedia link, the
link text must pass the navigation filter, the target must contain
"/wiki/", and the derived title must be nonempty and outside the
reserved namespaces. -/
def candidateOf : Option LinkItem → Option String
  | none => none
  | some l =>
    if (strContains l.href "wikipedia.org" || strStartsWith l.href "/wiki/") &&
        is_valid_external_link l.text then
      if strContains l.href "/wiki/" then
        let movie_title := wikiTitle l.href
        if movie_title ≠ "" &&
            !(strStartsWith movie_title "Category:") &&
            !(strStartsWith movie_title "Template:") &&
            !(strStartsWith movie_title "Wikipedia:") &&
            !(strStartsWith movie_title "Special:") then
          some movie_title
        else none
      else none
    else none

/-- Source `extract_external_links`: walk the section's list items in
document order, appending each accepted derived title unless it is
already in the accumulated output. -/
def extract_external_links (soup : ExtSoup) : List String :=
  if !soup.hasExternalSection then []
  else
    soup.items.foldl
      (fun external_links item =>
        match candidateOf item with
        | some movie_title =>
          if !(external_links.contains movie_title) then
            external_links ++ [movie_title]
          else external_links
        | none => external_links)
      []

/-- First-occurrence-order deduplication of a list. -/
def firstDedup (l : List String) : List String :=
  l.foldl (fun acc t => if !(acc.contains t) then acc ++ [t] else acc) []

/-- The accepted candidates of a page in document order, duplicates
included: the item stream the discoverer deduplicates. -/
def discovered_candidates (soup : ExtSoup) : List String :=
  if !soup.hasExternalSection then []
  else soup.items.filterMap candidateOf

/-! ## Item store (source lines 301-348)

A completion entry models one element of completedTestMovieList.json.
The nondeterministic `id` (a fresh uuid) and `completion_timestamp`
fields are omitted: the source never reads them back, and the spec's
idempotence is stated up to them ("semantically unchanged"). -/

structure CompletionEntry where
  movie_title : String
  status : String
  error : Option String
  deriving DecidableEq

/-- The part of a result dict that `save_completed_movie` reads:
`movie_data.get("status")` and `movie_data.get("error")`. -/
structure MovieData where
  status : Option String
  error : Option String
  deriving DecidableEq

/-- The entry `save_completed_movie` builds (source lines 316-322):
status is `"success"` when the datum's status is `"success"` and
`"failed"` otherwise; the error message is kept only in the non-success
case. -/
def completionInfo (movie_title : String) (movie_data : MovieData) : CompletionEntry :=
  { movie_title := movie_title,
    status := if movie_data.status = some "success" then "success" else "failed",
    error := if movie_data.status = some "success" then none else movie_data.error }

/-- Source `save_completed_movie` (lines 310-334): find the first
entry with this title and update it in place, else append at the end.
The durable rewrite of the file is the identity on the list. -/
def save_completed_movie (movie_title : String) (movie_data : MovieData) :
    List CompletionEntry → List CompletionEntry
  | [] => [completionInfo movie_title movie_data]
  | m :: rest =>
    if m.movie_title == movie_title then completionInfo movie_title movie_data :: rest
    else m :: save_completed_movie movie_title movie_data rest

/-- Source `is_movie_completed` (lines 341-343): an entry for the
title with status `"success"` exists. Defined in the source but never
called by `process_movie_recursive`. -/
def is_movie_completed (movie_title : String) (completed : List CompletionEntry) : Bool :=
  completed.any fun m => m.movie_title == movie_title && m.status == "success"

/-! ## Crawl engine (source lines 483-693)

`process_movie_recursive` mutates: the shared set `processed_movies`,
the shared set `global_visited`, the branch set object it was handed
(add then discard), and four JSON files. The files and shared sets are
gathered into one state record threaded through the recursion; the
branch set is passed and returned separately because children receive
a copy (source line 627) while the object handed to this call is
mutated in place. Network behavior is an oracle: per identifier,
either a successful extraction together with the external links later
discovered on the re-fetch (an empty list covers both "no links found"
and a failed re-fetch, which behave identically), or an error dict
from `get_movie_summary_wikipedia`, or an exception raised inside the
try block (caught at source line 645). -/

inductive Outcome where
  | ok (links : List String)
  | err (msg : String)
  | exc (msg : String)
  deriving DecidableEq

/-- One element of testedresult.json as written at source lines
544-551 and 650-657 (the timestamp is omitted as nondeterministic and
never read back). -/
structure TestResult where
  test_number : Nat
  movie_title : String
  extraction_status : String
  extracted_data : MovieData
  depth : Nat
  deriving DecidableEq

/-- One element of moviesInfoData.json (source line 553); the uuid is
omitted as nondeterministic. -/
structure MovieInfoEntry where
  movie_title : String
  result : MovieData
  deriving DecidableEq

/-- One element of external_links_history.json (source lines 245-251;
timestamp omitted). -/
structure HistoryEntry where
  movie_title : String
  external_links : List String
  depth : Nat
  link_count : Nat
  deriving DecidableEq

structure CrawlState where
  processed : Finset String
  globalVisited : Finset String
  completed : List CompletionEntry
  testResults : List TestResult
  movieInfo : List MovieInfoEntry
  history : List HistoryEntry
  deriving DecidableEq

/-- Source `add_to_external_links_history` (lines 239-263): append the
new entry, then keep only the last `MAX_HISTORY_LINKS` entries. -/
def add_to_external_links_history (movie_title : String) (external_links : List String)
    (depth : Nat) (history : List HistoryEntry) : List HistoryEntry :=
  let history := history ++
    [{ movie_title := movie_title, external_links := external_links,
       depth := depth, link_count := external_links.length }]
  if history.length > MAX_HISTORY_LINKS then
    history.drop (history.length - MAX_HISTORY_LINKS)
  else history

/-- Source lines 524-526: add the title to the shared tracking sets
(the branch set is handled by the caller of this helper). -/
def markVisited (movie_title : String) (st : CrawlState) : CrawlState :=
  { st with processed := insert movie_title st.processed,
            globalVisited := insert movie_title st.globalVisited }

/-- Persist one attempt: `save_completed_movie` (source line 541 or
648) followed by the append to testedresult.json (lines 556-570 or
661-675).  `test_number` is `len(processed_movies)` at that moment. -/
def recordAttempt (movie_title : String) (movie_data : MovieData)
    (extraction_status : String) (st : CrawlState) : CrawlState :=
  { st with
    completed := save_completed_movie movie_title movie_data st.completed,
    testResults := st.testResults ++
      [{ test_number := st.processed.card, movie_title := movie_title,
         extraction_status := extraction_status, extracted_data := movie_data,
         depth := 0 }] }

/-- Source `process_movie_recursive`, structurally recursive on a fuel
bound; the wrapper below supplies fuel exceeding the depth guard so
the fuel-exhausted branch is unreachable from the entry point.
Returns the final file/shared-set state together with the final
contents of the branch-set object that was passed in. -/
def processAux (world : String → Outcome) (max_movies : Nat) :
    Nat → String → CrawlState → Finset String → Nat → CrawlState × Finset String
  | 0, _, st, branch, _ => (st, branch)
  | fuel + 1, movie_title, st, branch, recursion_depth =>
    if recursion_depth > MAX_SAFETY_DEPTH then (st, branch)
    else if movie_title ∈ st.globalVisited then (st, branch)
    else if st.processed.card ≥ max_movies then (st, branch)
    else if ENABLE_CIRCULAR_REFERENCE_PREVENTION = true ∧ movie_title ∈ branch then
      (st, branch)
    else if ENABLE_GLOBAL_DUPLICATE_PREVENTION = true ∧ movie_title ∈ st.processed then
      (st, branch)
    else
      let st := markVisited movie_title st
      let branch := insert movie_title branch
      if st.completed.any (fun m => m.movie_title == movie_title) then (st, branch)
      else
        match world movie_title with
        | .exc msg =>
          let error_data : MovieData := { status := some "error", error := some msg }
          let st := recordAttempt movie_title error_data "error" st
          (st, branch.erase movie_title)
        | .err msg =>
          let result : MovieData := { status := none, error := some msg }
          let st := recordAttempt movie_title result "failed" st
          (st, branch.erase movie_title)
        | .ok external_links =>
          let result : MovieData := { status := some "success", error := none }
          let st := recordAttempt movie_title result "success" st
          let st := { st with movieInfo := st.movieInfo ++
            [{ movie_title := movie_title, result := result }] }
          let st :=
            if external_links ≠ [] then
              { st with history :=
                  add_to_external_links_history movie_title external_links 0 st.history }
            else st
          let st := external_links.foldl
            (fun st link_movie =>
              if link_movie ∉ st.processed ∧ st.processed.card < max_movies then
                (processAux world max_movies fuel link_movie st branch
                  (recursion_depth + 1)).1
              else st)
            st
          (st, branch.erase movie_title)

/-- Entry point matching `test_multiple_movies`'s call (source line
730): fresh empty branch set, depth 0, and fuel `MAX_SAFETY_DEPTH + 2`
so that every reachable call (depth at most `MAX_SAFETY_DEPTH + 1`)
has positive fuel and the depth guard, not the fuel, limits recursion.
The state carries the on-disk files as loaded at startup. -/
def process_movie_recursive (world : String → Outcome) (movie_title : String)
    (max_movies : Nat) (st : CrawlState) : CrawlState × Finset String :=
  processAux world max_movies (MAX_SAFETY_DEPTH + 2) movie_title st ∅ 0

/-- The state of a run over fresh (absent) data files: every file
loads as the empty list, every tracking set starts empty. -/
def initState : CrawlState :=
  { processed := ∅, globalVisited := ∅, completed := [],
    testResults := [], movieInfo := [], history := [] }

/-! ## Item store lemmas -/

/-- The set of identifiers having an entry in a completion log. -/
def completedTitles (completed : List CompletionEntry) : Finset String :=
  (completed.map (·.movie_title)).toFinset

theorem completionInfo_title (t : String) (d : MovieData) :
    (completionInfo t d).movie_title = t := rfl

theorem completedTitles_save (t : String) (d : MovieData) :
    ∀ l, completedTitles (save_completed_movie t d l) = insert t (completedTitles l) := by
  intro l
  induction l with
  | nil => simp [save_completed_movie, completedTitles, completionInfo]
  | cons m rest ih =>
    by_cases h : m.movie_title = t
    · simp [save_completed_movie, h, completedTitles, completionInfo]
    · simp only [save_completed_movie, beq_iff_eq, h, if_false, completedTitles,
        List.map_cons, List.toFinset_cons] at *
      rw [ih, Finset.Insert.comm]

theorem mem_save_titles (t : String) (d : MovieData) (l : List CompletionEntry)
    (x : String) :
    x ∈ (save_completed_movie t d l).map (·.movie_title) ↔
      x = t ∨ x ∈ l.map (·.movie_title) := by
  have h := completedTitles_save t d l
  have h1 : x ∈ completedTitles (save_completed_movie t d l) ↔
      x ∈ insert t (completedTitles l) := by rw [h]
  simpa [completedTitles, Finset.mem_insert] using h1

/-- The completion log keeps at most one entry per identifier. -/
def titlesNodup (l : List CompletionEntry) : Prop :=
  (l.map (·.movie_title)).Nodup

theorem titlesNodup_save (t : String) (d : MovieData) :
    ∀ l, titlesNodup l → titlesNodup (save_completed_movie t d l) := by
  intro l
  induction l with
  | nil => intro _; simp [save_completed_movie, titlesNodup]
  | cons m rest ih =>
    intro hnd
    simp only [titlesNodup, List.map_cons, List.nodup_cons] at hnd
    by_cases h : m.movie_title = t
    · simp only [save_completed_movie, beq_iff_eq, h, if_true, titlesNodup,
        List.map_cons, List.nodup_cons, completionInfo_title]
      rw [h] at hnd
      exact hnd
    · simp only [save_completed_movie, beq_iff_eq, h, if_false, titlesNodup,
        List.map_cons, List.nodup_cons]
      refine ⟨fun hmem => ?_, ih hnd.2⟩
      rcases (mem_save_titles t d rest m.movie_title).1 hmem with h' | h'
      · exact h h'
      · exact hnd.1 h'

theorem save_idempotent (t : String) (d : MovieData) :
    ∀ l, save_completed_movie t d (save_completed_movie t d l) =
      save_completed_movie t d l := by
  intro l
  induction l with
  | nil => simp [save_completed_movie, completionInfo_title]
  | cons m rest ih =>
    by_cases h : m.movie_title = t
    · simp [save_completed_movie, h, completionInfo_title]
    · simp [save_completed_movie, h, ih]

theorem save_length_update (t : String) (d : MovieData) :
    ∀ l, (l.any fun m => m.movie_title == t) = true →
      (save_completed_movie t d l).length = l.length := by
  intro l
  induction l with
  | nil => intro h; simp at h
  | cons m rest ih =>
    intro h
    by_cases hm : m.movie_title = t
    · simp [save_completed_movie, hm]
    · simp only [List.any_cons, Bool.or_eq_true, beq_iff_eq] at h
      rcases h with h | h
      · exact absurd h hm
      · simp [save_completed_movie, hm, ih h]

theorem save_length_append (t : String) (d : MovieData) :
    ∀ l, (l.any fun m => m.movie_title == t) = false →
      (save_completed_movie t d l).length = l.length + 1 := by
  intro l
  induction l with
  | nil => intro _; simp [save_completed_movie]
  | cons m rest ih =>
    intro h
    simp only [List.any_cons, Bool.or_eq_false_iff, beq_eq_false_iff_ne] at h
    simp [save_completed_movie, h.1, ih (by simpa using h.2)]

/-! ## Crawl-engine invariants -/

/-- Every persisted depth field (testedresult.json entries and
external-links-history entries) is zero. -/
def depthsZero (st : CrawlState) : Prop :=
  (∀ e ∈ st.testResults, e.depth = 0) ∧ (∀ e ∈ st.history, e.depth = 0)

/-- How one call of the crawl step may transform the shared state:
the processed set only grows, its cardinality stays within the budget
(or its initial excess), completion entries are only created for
processed identifiers, the extraction log only grows, and zero depth
fields stay zero. -/
def Evolves (max_movies : Nat) (st st' : CrawlState) : Prop :=
  st.processed ⊆ st'.processed ∧
  st'.processed.card ≤ max st.processed.card max_movies ∧
  completedTitles st'.completed ⊆ completedTitles st.completed ∪ st'.processed ∧
  st.testResults.length ≤ st'.testResults.length ∧
  (depthsZero st → depthsZero st')

theorem evolves_refl (max_movies : Nat) (st : CrawlState) : Evolves max_movies st st :=
  ⟨Finset.Subset.refl _, le_max_left _ _, Finset.subset_union_left,
   le_refl _, fun h => h⟩

theorem evolves_trans (max_movies : Nat) (a b c : CrawlState)
    (h1 : Evolves max_movies a b) (h2 : Evolves max_movies b c) :
    Evolves max_movies a c := by
  obtain ⟨p1, c1, t1, l1, d1⟩ := h1
  obtain ⟨p2, c2, t2, l2, d2⟩ := h2
  refine ⟨p1.trans p2, ?_, ?_, l1.trans l2, fun h => d2 (d1 h)⟩
  · exact c2.trans (max_le c1 (le_max_right _ _))
  · intro x hx
    rcases Finset.mem_union.1 (t2 hx) with h | h
    · rcases Finset.mem_union.1 (t1 h) with h' | h'
      · exact Finset.mem_union_left _ h'
      · exact Finset.mem_union_right _ (p2 h')
    · exact Finset.mem_union_right _ h

/-- A fold whose every step respects a reflexive transitive relation
respects it end to end. -/
theorem foldl_rel {α β : Type} (R : β → β → Prop)
    (hrefl : ∀ s, R s s) (htrans : ∀ a b c, R a b → R b c → R a c)
    (f : β → α → β) (hf : ∀ s a, R s (f s a)) :
    ∀ (l : List α) (s : β), R s (List.foldl f s l) := by
  intro l
  induction l with
  | nil => intro s; simpa using hrefl s
  | cons a rest ih => intro s; exact htrans _ _ _ (hf s a) (ih (f s a))

theorem depthsZero_addHistory (t : String) (links : List String)
    (h : List HistoryEntry) (hh : ∀ e ∈ h, e.depth = 0) :
    ∀ e ∈ add_to_external_links_history t links 0 h, e.depth = 0 := by
  intro e he
  have hmem : e ∈ h ++ [(⟨t, links, 0, links.length⟩ : HistoryEntry)] := by
    simp only [add_to_external_links_history] at he
    split at he
    · exact List.mem_of_mem_drop he
    · exact he
  rcases List.mem_append.1 hmem with h' | h'
  · exact hh e h'
  · simp only [List.mem_singleton] at h'
    rw [h']

/-- One-item persistence step of the engine: marking the identifier
and recording its attempt evolves the state (under the budget guard
that held when the mark was made). -/
theorem evolves_mark_record (max_movies : Nat) (title : String) (d : MovieData)
    (stat : String) (st : CrawlState) (hcard : st.processed.card < max_movies) :
    Evolves max_movies st (recordAttempt title d stat (markVisited title st)) := by
  refine ⟨?_, ?_, ?_, ?_, ?_⟩
  · intro x hx
    exact Finset.mem_insert_of_mem hx
  · calc (insert title st.processed).card ≤ st.processed.card + 1 :=
          Finset.card_insert_le _ _
      _ ≤ max_movies := hcard
      _ ≤ max st.processed.card max_movies := le_max_right _ _
  · intro x hx
    simp only [recordAttempt, markVisited] at hx
    rw [completedTitles_save] at hx
    rcases Finset.mem_insert.1 hx with h | h
    · subst h
      exact Finset.mem_union_right _ (Finset.mem_insert_self _ _)
    · exact Finset.mem_union_left _ h
  · simp [recordAttempt, markVisited]
  · rintro ⟨ht, hh⟩
    refine ⟨?_, hh⟩
    intro e he
    simp only [recordAttempt, markVisited, List.mem_append,
      List.mem_singleton] at he
    rcases he with h | h
    · exact ht e h
    · rw [h]

/-- Marking alone (the already-durably-completed skip path) evolves
the state. -/
theorem evolves_mark (max_movies : Nat) (title : String) (st : CrawlState)
    (hcard : st.processed.card < max_movies) :
    Evolves max_movies st (markVisited title st) := by
  refine ⟨?_, ?_, ?_, ?_, fun h => h⟩
  · intro x hx
    exact Finset.mem_insert_of_mem hx
  · calc (insert title st.processed).card ≤ st.processed.card + 1 :=
          Finset.card_insert_le _ _
      _ ≤ max_movies := hcard
      _ ≤ max st.processed.card max_movies := le_max_right _ _
  · exact Finset.subset_union_left
  · exact le_refl _

/-- State changes that leave every persisted log and tracking set
untouched (only the attribute log may differ) evolve the state. -/
theorem evolves_of_eq_fields (max_movies : Nat) (s s' : CrawlState)
    (hp : s'.processed = s.processed) (hc : s'.completed = s.completed)
    (ht : s'.testResults = s.testResults) (hh : s'.history = s.history) :
    Evolves max_movies s s' := by
  refine ⟨?_, ?_, ?_, ?_, ?_⟩
  · rw [hp]
  · rw [hp]; exact le_max_left _ _
  · rw [hp, hc]; exact Finset.subset_union_left
  · rw [ht]
  · intro h
    unfold depthsZero at *
    rw [ht, hh]
    exact h

theorem evolves_addHistory (max_movies : Nat) (s : CrawlState) (title : String)
    (links : List String) :
    Evolves max_movies s
      { s with history := add_to_external_links_history title links 0 s.history } := by
  refine ⟨Finset.Subset.refl _, le_max_left _ _, Finset.subset_union_left, le_refl _, ?_⟩
  rintro ⟨ht, hh⟩
  exact ⟨ht, depthsZero_addHistory title links s.history hh⟩

/-- Master invariant: one call of the crawl step evolves the shared
state, for every fuel, identifier, branch set and depth. -/
theorem processAux_evolves (world : String → Outcome) (max_movies : Nat) :
    ∀ fuel title st branch depth,
      Evolves max_movies st (processAux world max_movies fuel title st branch depth).1 := by
  intro fuel
  induction fuel with
  | zero =>
    intro title st branch depth
    exact evolves_refl _ _
  | succ n ih =>
    intro title st branch depth
    simp only [processAux]
    split
    · exact evolves_refl _ _
    split
    · exact evolves_refl _ _
    split
    · exact evolves_refl _ _
    next hcard =>
    have hlt : st.processed.card < max_movies := not_le.mp hcard
    split
    · exact evolves_refl _ _
    split
    · exact evolves_refl _ _
    split
    · exact evolves_mark max_movies title st hlt
    split
    · exact evolves_mark_record max_movies title _ _ st hlt
    · exact evolves_mark_record max_movies title _ _ st hlt
    · refine evolves_trans _ _ _ _ ?_
        (foldl_rel (Evolves max_movies) (evolves_refl _) (evolves_trans _) _ ?_ _ _)
      · split
        · exact evolves_trans _ _ _ _
            (evolves_trans _ _ _ _ (evolves_mark_record max_movies title _ _ st hlt)
              (evolves_of_eq_fields _ _ _ rfl rfl rfl rfl))
            (evolves_addHistory _ _ _ _)
        · exact evolves_trans _ _ _ _ (evolves_mark_record max_movies title _ _ st hlt)
            (evolves_of_eq_fields _ _ _ rfl rfl rfl rfl)
      · intro s a
        split
        · exact ih a s (insert title branch) (depth + 1)
        · exact evolves_refl _ _

/-! ## Concrete fixtures for tests and counterexamples -/

/-- A network where every page succeeds with no external links. -/
def okWorld : String → Outcome := fun _ => Outcome.ok []

/-- A network where every attempt raises an exception. -/
def excWorld : String → Outcome := fun _ => Outcome.exc "boom"

def chainNames : List String := (List.range 26).map (fun i => "c" ++ Nat.repr i)

/-- A synthetic linear chain: page `c0` links to `c1`, ... `c24` links
to `c25`, and `c25` has no links; every page extracts successfully. -/
def chainWorld (t : String) : Outcome :=
  match chainNames.indexOf? t with
  | some i => if i < 25 then Outcome.ok [chainNames.getD (i + 1) ""] else Outcome.ok []
  | none => Outcome.err "404"

/-- A store whose completion index already holds a non-success entry
for `"A"`. -/
def stFailedA : CrawlState :=
  { initState with completed := [⟨"A", "failed", some "x"⟩] }

/-! ## Claims -/

/-- C1 (code_bug evidence). The spec's tri-state completion status is
collapsed by `save_completed_movie`: a datum carrying
`status = "error"` (built at source line 647 for uncaught exceptions)
is persisted with status `"failed"` (source line 320), an exception
during a crawl of `"A"` therefore leaves a `"failed"` completion
entry, and a transport failure (an error dict without a status key) is
likewise persisted as `"failed"` — the status `"error"` never reaches
the completion index, contradicting the claimed
`success | failed | error` tri-state. -/
theorem c1_error_status_persisted_as_failed :
    save_completed_movie "A" ⟨some "error", some "boom"⟩ [] =
      [⟨"A", "failed", some "boom"⟩] ∧
    (process_movie_recursive excWorld "A" 5 initState).1.completed =
      [⟨"A", "failed", some "boom"⟩] ∧
    save_completed_movie "A" ⟨none, some "Request failed: timeout"⟩ [] =
      [⟨"A", "failed", some "Request failed: timeout"⟩] := by
  decide

/-- C5. A crawl run over fresh data files with budget `max_movies`
leaves at most `max_movies` distinct identifiers with a completion
entry: completion entries are only written for identifiers in the
processed set, and the budget guard keeps that set's cardinality
within the budget. -/
theorem c5_budget_bounds_completion_entries (world : String → Outcome)
    (movie_title : String) (max_movies : Nat) :
    (completedTitles
        (process_movie_recursive world movie_title max_movies initState).1.completed).card
      ≤ max_movies := by
  obtain ⟨hp, hcard, hsub, -, -⟩ :=
    processAux_evolves world max_movies (MAX_SAFETY_DEPTH + 2) movie_title initState ∅ 0
  have hT : completedTitles
      (process_movie_recursive world movie_title max_movies initState).1.completed ⊆
      (process_movie_recursive world movie_title max_movies initState).1.processed := by
    intro x hx
    have hx' := hsub hx
    simpa [initState, completedTitles] using hx'
  calc (completedTitles
        (process_movie_recursive world movie_title max_movies initState).1.completed).card
      ≤ (process_movie_recursive world movie_title max_movies initState).1.processed.card :=
        Finset.card_le_card hT
    _ ≤ max initState.processed.card max_movies := hcard
    _ = max_movies := by simp [initState]

/-- C6. Depth guard: on the synthetic 25-link linear chain the run
from the seed writes completion entries for at most
`MAX_SAFETY_DEPTH + 1 = 21` identifiers, and every call at depth
greater than `MAX_SAFETY_DEPTH` returns immediately with the state and
branch set untouched (no fetch, no persistence). -/
theorem c6_depth_guard_bounds_chain :
    (completedTitles
        (process_movie_recursive chainWorld "c0" MAX_MOVIES initState).1.completed).card
      ≤ MAX_SAFETY_DEPTH + 1 ∧
    ∀ (world : String → Outcome) (max_movies fuel : Nat) (movie_title : String)
      (st : CrawlState) (branch : Finset String) (depth : Nat),
      depth > MAX_SAFETY_DEPTH →
      processAux world max_movies fuel movie_title st branch depth = (st, branch) := by
  constructor
  · decide
  · intro world mm fuel t s b d hd
    cases fuel with
    | zero => rfl
    | succ n => simp only [processAux, if_pos hd]

/-- Witness for C6: a concrete call at depth 21 (> `MAX_SAFETY_DEPTH`)
returns the state and branch unchanged. -/
theorem c6_depth_guard_witness :
    21 > MAX_SAFETY_DEPTH ∧
    processAux chainWorld MAX_MOVIES 1 "c21" initState ∅ 21 = (initState, ∅) :=
  ⟨by decide,
   c6_depth_guard_bounds_chain.2 chainWorld MAX_MOVIES 1 "c21" initState ∅ 21 (by decide)⟩

/-- C10. Every element of the persisted extraction log and of the
external-links history has depth field 0, whatever the recursion depth
of the call that wrote it: the engine writes the literal 0 (source
lines 550, 615, 656), never the actual `recursion_depth`. -/
theorem c10_persisted_depth_always_zero (world : String → Outcome)
    (max_movies fuel : Nat) (movie_title : String) (st : CrawlState)
    (branch : Finset String) (depth : Nat) (h : depthsZero st) :
    depthsZero (processAux world max_movies fuel movie_title st branch depth).1 :=
  (processAux_evolves world max_movies fuel movie_title st branch depth).2.2.2.2 h

/-- Witness for C10: the chain crawl (which recurses to depth 20)
yields logs whose depth fields are all 0. -/
theorem c10_depth_zero_witness :
    depthsZero (process_movie_recursive chainWorld "c0" 5 initState).1 :=
  c10_persisted_depth_always_zero chainWorld 5 (MAX_SAFETY_DEPTH + 2) "c0" initState ∅ 0
    ⟨by intro e he; simp [initState] at he, by intro e he; simp [initState] at he⟩

/-- C2 counterexample. The stored entry for `"A"` has status
`"failed"`, not `"success"` (so `is_movie_completed` is false), yet
the crawl of `"A"` is aborted by the engine's store guard: no fetch is
attempted (the extraction log stays empty) and the completion index is
left untouched — contradicting the claim that only success entries are
skipped and failed/error entries are re-attempted. -/
theorem c2_failed_entry_is_skipped :
    is_movie_completed "A" stFailedA.completed = false ∧
    (process_movie_recursive okWorld "A" 5 stFailedA).1.testResults = [] ∧
    (process_movie_recursive okWorld "A" 5 stFailedA).1.completed = stFailedA.completed := by
  decide

/-- C2 (amended). The store guard (source lines 533-536) aborts with
nothing fetched or persisted exactly when the completion index holds
any entry for the identifier, regardless of its status; when no entry
exists at all, an attempt is recorded (the extraction log strictly
grows). -/
theorem c2_store_guard_skips_any_entry (world : String → Outcome)
    (max_movies fuel : Nat) (movie_title : String) (st : CrawlState)
    (branch : Finset String) (depth : Nat)
    (h1 : depth ≤ MAX_SAFETY_DEPTH) (h2 : movie_title ∉ st.globalVisited)
    (h3 : st.processed.card < max_movies) (h4 : movie_title ∉ branch)
    (h5 : movie_title ∉ st.processed) :
    ((st.completed.any fun m => m.movie_title == movie_title) = true →
      (processAux world max_movies (fuel + 1) movie_title st branch depth).1.completed
          = st.completed ∧
      (processAux world max_movies (fuel + 1) movie_title st branch depth).1.testResults
          = st.testResults) ∧
    ((st.completed.any fun m => m.movie_title == movie_title) = false →
      st.testResults.length <
        (processAux world max_movies (fuel + 1) movie_title st branch depth).1.testResults.length) := by
  have hguard : ¬ depth > MAX_SAFETY_DEPTH := not_lt.mpr h1
  have hcard : ¬ st.processed.card ≥ max_movies := not_le.mpr h3
  have hg4 : ¬ (ENABLE_CIRCULAR_REFERENCE_PREVENTION = true ∧ movie_title ∈ branch) :=
    fun h => h4 h.2
  have hg5 : ¬ (ENABLE_GLOBAL_DUPLICATE_PREVENTION = true ∧ movie_title ∈ st.processed) :=
    fun h => h5 h.2
  constructor
  · intro hany
    simp only [processAux, if_neg hguard, if_neg h2, if_neg hcard, if_neg hg4,
      if_neg hg5, markVisited]
    rw [if_pos hany]
    exact ⟨rfl, rfl⟩
  · intro hany
    simp only [processAux, if_neg hguard, if_neg h2, if_neg hcard, if_neg hg4,
      if_neg hg5, markVisited]
    rw [if_neg (fun h => by rw [hany] at h; exact Bool.false_ne_true h)]
    split
    · simp [recordAttempt]
    · simp [recordAttempt]
    · dsimp only
      refine lt_of_lt_of_le ?_
        (@foldl_rel String CrawlState (fun a b => a.testResults.length ≤ b.testResults.length)
          (fun _ => le_refl _) (fun _ _ _ hab hbc => le_trans hab hbc) _ ?_ _ _)
      · split
        · simp only [recordAttempt, List.length_append, List.length_singleton]
          omega
        · simp only [recordAttempt, List.length_append, List.length_singleton]
          omega
      · intro s a
        split
        · exact (processAux_evolves world max_movies fuel a s _ _).2.2.2.1
        · exact le_refl _

/-- Witness for C2 (amended): with a (non-success) entry for `"A"`
already stored, the concrete call leaves the extraction log unchanged. -/
theorem c2_store_guard_witness :
    (stFailedA.completed.any fun m => m.movie_title == "A") = true ∧
    (processAux okWorld 5 (MAX_SAFETY_DEPTH + 1 + 1) "A" stFailedA ∅ 0).1.testResults
      = stFailedA.testResults :=
  ⟨by decide,
   ((c2_store_guard_skips_any_entry okWorld 5 (MAX_SAFETY_DEPTH + 1) "A" stFailedA ∅ 0
      (by decide) (by decide) (by decide) (by decide) (by decide)).1 (by decide)).2⟩

/-- C3 counterexample. A call that marks `"A"` in the branch set (the
guards all pass, and afterwards `"A"` is in the processed set) but
hits the store guard returns with `"A"` still in the branch set: the
early return at source line 536 bypasses the backtracking discard at
line 691. -/
theorem c3_store_skip_leaves_branch_marked :
    "A" ∈ (process_movie_recursive okWorld "A" 5 stFailedA).1.processed ∧
    "A" ∈ (process_movie_recursive okWorld "A" 5 stFailedA).2 := by
  decide

/-- C3 (amended). For every call that marks its identifier and does
not hit the store guard — success, failure and error outcomes alike —
the identifier is discarded from the branch set before return, leaving
the set exactly as received; only the store-guard early return keeps
the marking. -/
theorem c3_branch_unmarked_except_store_skip (world : String → Outcome)
    (max_movies fuel : Nat) (movie_title : String) (st : CrawlState)
    (branch : Finset String) (depth : Nat)
    (h1 : depth ≤ MAX_SAFETY_DEPTH) (h2 : movie_title ∉ st.globalVisited)
    (h3 : st.processed.card < max_movies) (h4 : movie_title ∉ branch)
    (h5 : movie_title ∉ st.processed)
    (h6 : (st.completed.any fun m => m.movie_title == movie_title) = false) :
    (processAux world max_movies (fuel + 1) movie_title st branch depth).2 = branch ∧
    movie_title ∉ (processAux world max_movies (fuel + 1) movie_title st branch depth).2 := by
  have hguard : ¬ depth > MAX_SAFETY_DEPTH := not_lt.mpr h1
  have hcard : ¬ st.processed.card ≥ max_movies := not_le.mpr h3
  have hg4 : ¬ (ENABLE_CIRCULAR_REFERENCE_PREVENTION = true ∧ movie_title ∈ branch) :=
    fun h => h4 h.2
  have hg5 : ¬ (ENABLE_GLOBAL_DUPLICATE_PREVENTION = true ∧ movie_title ∈ st.processed) :=
    fun h => h5 h.2
  have hmain : (processAux world max_movies (fuel + 1) movie_title st branch depth).2
      = branch := by
    simp only [processAux, if_neg hguard, if_neg h2, if_neg hcard, if_neg hg4,
      if_neg hg5, markVisited]
    rw [if_neg (fun h => by rw [h6] at h; exact Bool.false_ne_true h)]
    split
    · exact Finset.erase_insert h4
    · exact Finset.erase_insert h4
    · exact Finset.erase_insert h4
  exact ⟨hmain, by rw [hmain]; exact h4⟩

/-- Witness for C3 (amended): a concrete non-skipped call hands back
its branch set unchanged. -/
theorem c3_branch_unmarked_witness :
    (processAux okWorld 5 (MAX_SAFETY_DEPTH + 1 + 1) "A" initState ∅ 0).2 = ∅ :=
  (c3_branch_unmarked_except_store_skip okWorld 5 (MAX_SAFETY_DEPTH + 1) "A" initState ∅ 0
    (by decide) (by decide) (by decide) (by decide) (by decide) (by decide)).1

/-- C4 counterexample. The text `"Movie"` is not a denylist element
and is longer than one character, yet the navigation filter rejects it
(its lowercase form contains the denylist elements `"v"` and `"e"` as
substrings) — contradicting the claim that every multi-character text
outside the denylist is accepted. -/
theorem c4_multichar_title_rejected :
    is_valid_external_link "Movie" = false ∧
    "Movie" ∉ nav_elements ∧ 1 < "Movie".length := by
  decide

/-- C4 (amended). The navigation filter accepts a text exactly when
its trimmed form is not a denylist element, no denylist element occurs
as a substring of its lowercased trimmed form, and its trimmed form is
longer than one character. -/
theorem c4_filter_characterization (text : String) :
    is_valid_external_link text = true ↔
      (strTrim text ∉ nav_elements ∧
       (∀ nav ∈ nav_elements, strContains (strLower (strTrim text)) nav = false) ∧
       1 < (strTrim text).length) := by
  simp only [is_valid_external_link, Bool.and_eq_true, Bool.not_eq_true',
    decide_eq_true_eq, List.any_eq_true]
  constructor
  · rintro ⟨⟨hmem, hsub⟩, hlen⟩
    refine ⟨fun hc => ?_, fun nav hnav => ?_, hlen⟩
    · have hc' : nav_elements.contains (strTrim text) = true := List.elem_iff.mpr hc
      exact Bool.false_ne_true (hmem ▸ hc')
    · by_contra hne
      simp only [List.any_eq_false] at hsub
      exact absurd (by simpa using hsub nav hnav) hne
  · rintro ⟨hmem, hsub, hlen⟩
    refine ⟨⟨?_, ?_⟩, hlen⟩
    · by_contra hc
      simp only [Bool.not_eq_false] at hc
      exact hmem (List.elem_iff.mp hc)
    · simp only [List.any_eq_false]
      intro x hx
      simp [hsub x hx]

/-- Witness for C4 (amended): `"Anna"` is accepted, and accordingly
passes all three characterizing conditions. -/
theorem c4_filter_witness :
    strTrim "Anna" ∉ nav_elements ∧
    (∀ nav ∈ nav_elements, strContains (strLower (strTrim "Anna")) nav = false) ∧
    1 < (strTrim "Anna").length :=
  (c4_filter_characterization "Anna").mp (by decide)

/-- C7. A fetch-and-extract result with status success carries a
non-empty plot summary: the success record is only built after the
stripped concatenated plot text passes the non-emptiness gate (source
line 201), and its summary field is exactly that stripped text. -/
theorem c7_success_implies_nonempty_summary (resp : FetchResp) (s : String)
    (h : get_movie_summary_wikipedia resp = ExtractResult.success s) :
    s ≠ "" ∧ ∀ soup, resp = FetchResp.page soup → s = strTrim (extract_plot_text soup) := by
  cases resp with
  | badStatus code => cases h
  | requestFailed msg => cases h
  | page soup =>
    simp only [get_movie_summary_wikipedia] at h
    split at h
    · cases h
    · next hne =>
      cases h
      exact ⟨hne, fun soup2 hs => by cases hs; rfl⟩

/-- Witness for C7: a page with Plot paragraphs
`"He runs."` and `"He wins.[3]"` yields the non-empty summary
`"He runs.\nHe wins."` (the reference marker stripped). -/
theorem c7_success_witness :
    ("He runs.\nHe wins." : String) ≠ "" ∧
    "He runs.\nHe wins." = strTrim (extract_plot_text ⟨true, ["He runs.", "He wins.[3]"]⟩) := by
  have h := c7_success_implies_nonempty_summary
    (FetchResp.page ⟨true, ["He runs.", "He wins.[3]"]⟩) "He runs.\nHe wins." (by decide)
  exact ⟨h.1, h.2 ⟨true, ["He runs.", "He wins.[3]"]⟩ rfl⟩

/-- C8. `save_completed_movie` upserts by identifier: it preserves the
at-most-one-entry-per-identifier invariant, repeated calls with
identical input leave the log unchanged, and it updates in place
(same length) when an entry exists, appending exactly one entry
otherwise. -/
theorem c8_record_completion_idempotent_upsert (movie_title : String)
    (movie_data : MovieData) (l : List CompletionEntry) :
    (titlesNodup l → titlesNodup (save_completed_movie movie_title movie_data l)) ∧
    save_completed_movie movie_title movie_data
        (save_completed_movie movie_title movie_data l) =
      save_completed_movie movie_title movie_data l ∧
    ((l.any fun m => m.movie_title == movie_title) = true →
      (save_completed_movie movie_title movie_data l).length = l.length) ∧
    ((l.any fun m => m.movie_title == movie_title) = false →
      (save_completed_movie movie_title movie_data l).length = l.length + 1) :=
  ⟨titlesNodup_save _ _ l, save_idempotent _ _ l,
   save_length_update _ _ l, save_length_append _ _ l⟩

/-- Witness for C8: upserting a success record over a one-entry log
holding the same identifier keeps one well-keyed entry. -/
theorem c8_upsert_witness :
    titlesNodup (save_completed_movie "A" ⟨some "success", none⟩
      [⟨"A", "failed", some "x"⟩]) ∧
    (save_completed_movie "A" ⟨some "success", none⟩
      [⟨"A", "failed", some "x"⟩]).length = 1 := by
  have h := c8_record_completion_idempotent_upsert "A" ⟨some "success", none⟩
    [⟨"A", "failed", some "x"⟩]
  exact ⟨h.1 (by unfold titlesNodup; decide), h.2.2.1 (by decide)⟩

/-! ## Link discoverer lemmas -/

theorem extract_step_eq (items : List (Option LinkItem)) :
    ∀ acc : List String,
      items.foldl
        (fun external_links item =>
          match candidateOf item with
          | some movie_title =>
            if !(external_links.contains movie_title) then external_links ++ [movie_title]
            else external_links
          | none => external_links) acc =
      (items.filterMap candidateOf).foldl
        (fun acc t => if !(acc.contains t) then acc ++ [t] else acc) acc := by
  induction items with
  | nil => intro acc; simp
  | cons item rest ih =>
    intro acc
    cases hc : candidateOf item with
    | none => simp only [List.foldl_cons, List.filterMap_cons, hc, ih]
    | some t => simp only [List.foldl_cons, List.filterMap_cons, hc, ih]

theorem dedup_foldl_nodup :
    ∀ (l acc : List String), acc.Nodup →
      (l.foldl (fun acc t => if !(acc.contains t) then acc ++ [t] else acc) acc).Nodup := by
  intro l
  induction l with
  | nil => intro acc h; simpa using h
  | cons t rest ih =>
    intro acc h
    simp only [List.foldl_cons]
    by_cases hc : acc.contains t
    · simp only [hc, Bool.not_true, Bool.false_eq_true, if_false]
      exact ih acc h
    · simp only [Bool.not_eq_true] at hc
      simp only [hc, Bool.not_false, if_true]
      have hnotmem : t ∉ acc := fun hmem => by
        have hcc : acc.contains t = true := List.elem_iff.mpr hmem
        rw [hc] at hcc
        exact Bool.false_ne_true hcc
      refine ih _ ?_
      rw [← List.concat_eq_append]
      exact List.Nodup.concat hnotmem h

theorem mem_dedup_foldl :
    ∀ (l acc : List String) (x : String),
      x ∈ l.foldl (fun acc t => if !(acc.contains t) then acc ++ [t] else acc) acc →
      x ∈ acc ∨ x ∈ l := by
  intro l
  induction l with
  | nil => intro acc x h; exact Or.inl (by simpa using h)
  | cons t rest ih =>
    intro acc x h
    simp only [List.foldl_cons] at h
    by_cases hc : acc.contains t
    · simp only [hc, Bool.not_true, Bool.false_eq_true, if_false] at h
      rcases ih acc x h with h' | h'
      · exact Or.inl h'
      · exact Or.inr (List.mem_cons_of_mem _ h')
    · simp only [Bool.not_eq_true] at hc
      simp only [hc, Bool.not_false, if_true] at h
      rcases ih _ x h with h' | h'
      · rcases List.mem_append.1 h' with h'' | h''
        · exact Or.inl h''
        · simp only [List.mem_singleton] at h''
          exact Or.inr (h'' ▸ List.mem_cons_self _ _)
      · exact Or.inr (List.mem_cons_of_mem _ h')

theorem candidateOf_inv (item : Option LinkItem) (t : String)
    (h : candidateOf item = some t) :
    ∃ li : LinkItem, item = some li ∧ t = wikiTitle li.href ∧
      strContains li.href "/wiki/" = true ∧
      is_valid_external_link li.text = true ∧
      t ≠ "" ∧
      strStartsWith t "Category:" = false ∧ strStartsWith t "Template:" = false ∧
      strStartsWith t "Wikipedia:" = false ∧ strStartsWith t "Special:" = false := by
  cases item with
  | none => cases h
  | some li =>
    refine ⟨li, rfl, ?_⟩
    simp only [candidateOf] at h
    split at h
    · next hcond1 =>
      split at h
      · next hcond2 =>
        split at h
        · next hcond3 =>
          cases h
          simp only [Bool.and_eq_true, Bool.not_eq_true', decide_eq_true_eq] at hcond1 hcond3
          exact ⟨rfl, hcond2, hcond1.2, hcond3.1.1.1.1, hcond3.1.1.1.2, hcond3.1.1.2,
            hcond3.1.2, hcond3.2⟩
        · cases h
      · cases h
    · cases h

/-- C9. The link discoverer returns the first-occurrence-order
deduplication of the document-order stream of accepted candidates, so
its output has no duplicates; and every returned identifier is derived
as the trailing `/wiki/` path segment of a link held by one of the
External-links-section list items, and starts with none of the
reserved namespaces `Category:`, `Template:`, `Wikipedia:`,
`Special:`. -/
theorem c9_link_discovery_dedup_and_namespaces (soup : ExtSoup) :
    extract_external_links soup = firstDedup (discovered_candidates soup) ∧
    (extract_external_links soup).Nodup ∧
    ∀ t ∈ extract_external_links soup,
      (∃ li : LinkItem, some li ∈ soup.items ∧ candidateOf (some li) = some t ∧
        t = wikiTitle li.href) ∧
      strStartsWith t "Category:" = false ∧ strStartsWith t "Template:" = false ∧
      strStartsWith t "Wikipedia:" = false ∧ strStartsWith t "Special:" = false := by
  have heq : extract_external_links soup = firstDedup (discovered_candidates soup) := by
    cases hsec : soup.hasExternalSection with
    | false => simp [extract_external_links, discovered_candidates, hsec, firstDedup]
    | true =>
      simp only [extract_external_links, discovered_candidates, hsec, Bool.not_true,
        Bool.false_eq_true, if_false, firstDedup]
      exact extract_step_eq soup.items []
  refine ⟨heq, ?_, ?_⟩
  · rw [heq]
    exact dedup_foldl_nodup _ [] List.nodup_nil
  · intro t ht
    rw [heq] at ht
    have hmem : t ∈ discovered_candidates soup := by
      rcases mem_dedup_foldl _ [] t ht with h | h
      · cases h
      · exact h
    have hcand : ∃ item ∈ soup.items, candidateOf item = some t := by
      unfold discovered_candidates at hmem
      split at hmem
      · cases hmem
      · exact List.mem_filterMap.1 hmem
    obtain ⟨item, hitem, hc⟩ := hcand
    obtain ⟨li, hli, hwt, -, -, -, h1, h2, h3, h4⟩ := candidateOf_inv item t hc
    subst hli
    exact ⟨⟨li, hitem, hc, hwt⟩, h1, h2, h3, h4⟩

/-- Witness for C9: a concrete page with a duplicated article link and
a category link yields the single deduplicated identifier, which is
namespace-free; the output list has no duplicates. -/
theorem c9_discovery_witness :
    (extract_external_links ⟨true,
      [some ⟨"/wiki/Anna_K", "Anna Karan"⟩, none, some ⟨"/wiki/Anna_K", "Anna Karan"⟩,
       some ⟨"/wiki/Category:Flops", "Anna Karan"⟩]⟩).Nodup ∧
    strStartsWith "Anna_K" "Category:" = false := by
  have h := c9_link_discovery_dedup_and_namespaces ⟨true,
    [some ⟨"/wiki/Anna_K", "Anna Karan"⟩, none, some ⟨"/wiki/Anna_K", "Anna Karan"⟩,
     some ⟨"/wiki/Category:Flops", "Anna Karan"⟩]⟩
  exact ⟨h.2.1, (h.2.2 "Anna_K" (by decide)).2.1⟩
